import Mathlib

/-!
Verification of the core executor of the piston code-execution judge
(`api/src/executor/job.js`): the Job lifecycle (`prime`, `execute`),
the sandbox invoker's output-cap accounting (`safe_call`), the verdict
adjudicator (`evaluate`), and the rotating identity pool (`shuffle_ids`,
module-level `uid`/`gid` counters).

The JavaScript is embedded shallowly: the mutable `run` array threaded
through `evaluate` becomes an explicit returned list, the module-level
identity counters become an explicit `IdPool` state, filesystem and
process effects are abstracted (a boolean for `fs.mkdir` failing because
the directory exists, an oracle function standing for `safe_call`), and
JS truthiness of strings becomes comparison with the empty string.
-/

namespace Piston

/-- Verdict statuses, from the `Verdict` constant of `job.js`. -/
inductive Verdict
  | AC
  | WA
  | COMPILATION
  | RUNTIME
  | TLE
  | MLE
  | PENDING
  | ERROR
deriving DecidableEq

/-- Result of one `safe_call` invocation: the object
`{ stdout, stderr, code, signal, stdin }` resolved on child exit. -/
structure RunResult where
  stdout : String
  stderr : String
  code : Option Int
  signal : Option String
  stdin : String
deriving DecidableEq

/-- A verdict object as built by `execute`/`evaluate`.  The JS objects do
not all use the same keys: run-phase verdicts carry `stdout` and
`expected_output`, while the compilation short-circuit verdict carries
`output` and `expectedOutput`.  Each key is modelled as its own field;
a field left at its default `none` corresponds to an absent or `null`
key. -/
structure VerdictObj where
  status : Verdict
  stdout : Option String := none
  output : Option String := none
  stdin : Option String := none
  expected_output : Option String := none
  expectedOutput : Option String := none
deriving DecidableEq

/-- The object `{ compile, run, verdict }` returned by `execute` and
`evaluate`.  Its `run` field is the `run` array as it stands when the
object is built (that is, after any in-place mutation by `evaluate`). -/
structure Response where
  compile : Option RunResult
  run : List RunResult
  verdict : VerdictObj
deriving DecidableEq

/-- The character class of the JS regex `\s` (used by
`.replace(/^\s+|\s+$/g, "")`): space, `\t`-`\r`, NBSP, Ogham space mark,
the U+2000 block, line and paragraph separators, narrow NBSP, medium
mathematical space, ideographic space and BOM. -/
def js_whitespace (c : Char) : Bool :=
  let n := c.toNat
  n == 32 || (9 <= n && n <= 13) || n == 0xa0 || n == 0x1680 ||
  (0x2000 <= n && n <= 0x200a) || n == 0x2028 || n == 0x2029 ||
  n == 0x202f || n == 0x205f || n == 0x3000 || n == 0xfeff

/-- Character-list form of `s.replace(/^\s+|\s+$/g, "")`: drop the
leading whitespace run, then the trailing one. -/
def trim_chars (l : List Char) : List Char :=
  List.rdropWhile js_whitespace (List.dropWhile js_whitespace l)

/-- `s.replace(/^\s+|\s+$/g, "")` on strings. -/
def js_trim (s : String) : String :=
  String.mk (trim_chars s.data)

/-- The in-place update `run[i].stdout = run[i].stdout.replace(/^\s+|\s+$/g, "")`
performed by `evaluate` on a single entry. -/
def trim_entry (r : RunResult) : RunResult :=
  { r with stdout := js_trim r.stdout }

/-- The loop body of `Job.evaluate`, iterating over the tail `rest` of the
`run` array starting at index `i`.  Returns the `run` entries as they
stand after the loop (the trim of a checked case mutates the array in
place) together with the verdict returned from inside the loop, if any.
`eo` is `this.expected_output` (`none` when not provided) and `stdin` is
`this.stdin`. -/
def eval_cases (eo : Option (List String)) (stdin : List String) :
    Nat → List RunResult → List RunResult × Option VerdictObj
  | _, [] => ([], none)
  | i, r :: rs =>
    let expected_i : Option String := eo.map (fun l => l.getD i "")
    if r.stderr ≠ "" then
      (r :: rs, some { status := Verdict.RUNTIME, stdout := some r.stderr,
                       stdin := some (stdin.getD i ""), expected_output := expected_i })
    else if r.signal = some "SIGKILL" then
      (r :: rs, some { status := Verdict.TLE, stdout := some r.stdout,
                       stdin := some (stdin.getD i ""), expected_output := expected_i })
    else
      match eo with
      | some l =>
        let r' := trim_entry r
        if r'.stdout ≠ l.getD i "" then
          (r' :: rs, some { status := Verdict.WA, stdout := some r'.stdout,
                            stdin := some (stdin.getD i ""),
                            expected_output := some (js_trim (l.getD i "")) })
        else
          let rest := eval_cases eo stdin (i + 1) rs
          (r' :: rest.1, rest.2)
      | none =>
        let rest := eval_cases eo stdin (i + 1) rs
        (r :: rest.1, rest.2)

/-- `Job.evaluate(run, compile)`: fold the run results into a single
verdict.  Note that the wrong-answer check of the source trims
`run[i].stdout` in place and then compares it against the untrimmed
`this.expected_output[i]`; the returned `run` field reflects those
in-place trims. -/
def evaluate (eo : Option (List String)) (stdin : List String)
    (compile : Option RunResult) (run : List RunResult) : Response :=
  let res := eval_cases eo stdin 0 run
  match res.2 with
  | some v => { compile := compile, run := res.1, verdict := v }
  | none =>
    { compile := compile, run := res.1,
      verdict := { status := Verdict.AC,
                   stdout := res.1.head?.map RunResult.stdout,
                   stdin := stdin.head?,
                   expected_output := none } }

/-- Specification-side per-case classification used to state the
adjudication-order claim: the non-accepting verdict (if any) that the
adjudicator's fixed priority assigns to entry `r` at index `i`, with the
wrong-answer test exactly as the source performs it (trimmed stdout
against the raw expected string). -/
def case_status (eo : Option (List String)) (i : Nat) (r : RunResult) : Option Verdict :=
  if r.stderr ≠ "" then some Verdict.RUNTIME
  else if r.signal = some "SIGKILL" then some Verdict.TLE
  else
    match eo with
    | some l => if js_trim r.stdout ≠ l.getD i "" then some Verdict.WA else none
    | none => none

/-- The shape the `run` array has after a fully accepting pass of
`evaluate`: every inspected entry had its stdout trimmed in place when
`expected_output` was provided, and was left untouched otherwise. -/
def pass_map (eo : Option (List String)) (run : List RunResult) : List RunResult :=
  match eo with
  | some _ => run.map trim_entry
  | none => run

/-- The three Job lifecycle states (`job_states` in the source). -/
inductive JState
  | READY
  | PRIMED
  | EXECUTED
deriving DecidableEq

/-- The slice of the runtime object that `Job` consults. -/
structure Runtime where
  language : String
  compiled : Bool
deriving DecidableEq

/-- One entry of the `files` array of a job spec. -/
structure FileSpec where
  name : String
  content : String
deriving DecidableEq

/-- The fields of a `Job` instance that the modelled operations read or
write.  `uid`/`gid` are the identities assigned by `shuffle_ids`. -/
structure Job where
  runtime : Runtime
  files : List FileSpec
  args : List String
  stdin : List String
  expected_output : Option (List String)
  main : String
  uid : Nat
  gid : Nat
  state : JState
deriving DecidableEq

/-- Error classes of the executor distinguished by the claims:
lifecycle misuse and filesystem failures. -/
inductive ErrorKind
  | InvalidState
  | Filesystem
deriving DecidableEq

/-- `Job.prime`.  The source performs no state check: it runs
`fs.mkdir(this.dir, { mode: 0o700 })`, the chowns and file writes, and
then unconditionally sets `this.state = PRIMED`.  The only modelled
failure is `fs.mkdir` rejecting because the workspace directory already
exists (`dir_exists`), in which case the job is left unchanged. -/
def prime (j : Job) (dir_exists : Bool) : Job × Except ErrorKind Unit :=
  if dir_exists then (j, Except.error ErrorKind.Filesystem)
  else ({ j with state := JState.PRIMED }, Except.ok ())

/-- Whether `execute` dispatched the runs serially (`run_in_band`) or via
`Promise.all` (`run_in_parallel`). -/
inductive Dispatch
  | serial
  | parallel
deriving DecidableEq

/-- The compilation short-circuit condition of `execute`:
`compile.stderr || compile.signal === "SIGKILL"` (JS string truthiness is
non-emptiness). -/
def compile_failed (c : RunResult) : Bool :=
  c.stderr != "" || c.signal == some "SIGKILL"

/-- The fallback diagnostic used when the failed compile left no stderr. -/
def generic_compile_message : String :=
  "Something went wrong during compilation"

/-- `Job.run_in_band`: invoke `call` on each stdin payload in order, each
awaited before the next starts. -/
def run_in_band (call : String → RunResult) : List String → List RunResult
  | [] => []
  | s :: rest => call s :: run_in_band call rest

/-- `Job.run_in_parallel`: start an invocation per stdin payload and
collect the results with `Promise.all`, which preserves index order. -/
def run_in_parallel (call : String → RunResult) (stdin : List String) : List RunResult :=
  stdin.map call

/-- `this.main.slice(0, -5)`: keep all but the last five characters of the
string (JS clamps a negative end index at zero, as `List.take` does with
truncated subtraction). -/
def slice_drop5 (s : String) : String :=
  String.mk (s.data.take (s.data.length - 5))

/-- The run phase of `Job.execute` (everything after the compilation
short-circuit): the Java entry-file adjustment `this.main.slice(0, -5)`,
the serial-versus-parallel dispatch decision, the `EXECUTED` transition
and the hand-off to `evaluate`.  `sc exe argv stdin` stands for
`this.safe_call(path.join(pkgdir, exe), argv, timeout, stdin)`. -/
def execute_runs (sc : String → List String → String → RunResult) (j : Job)
    (compile : Option RunResult) : Job × Except ErrorKind (Response × Option Dispatch) :=
  if j.runtime.language = "java" then
    let m := if j.runtime.compiled then slice_drop5 j.main else j.main
    let run := run_in_band (fun s => sc "run" (m :: j.args) s) j.stdin
    ({ j with main := m, state := JState.EXECUTED },
     Except.ok (evaluate j.expected_output j.stdin compile run, some Dispatch.serial))
  else
    let run := run_in_parallel (fun s => sc "run" (j.main :: j.args) s) j.stdin
    ({ j with state := JState.EXECUTED },
     Except.ok (evaluate j.expected_output j.stdin compile run, some Dispatch.parallel))

/-- `Job.execute`: guard on the `PRIMED` state, run the compile phase when
the runtime is compiled, short-circuit with a `COMPILATION` verdict when
the compile result has stderr or was SIGKILLed, and otherwise perform the
run phase.  The first component is the job as `execute` leaves it; the
`Option Dispatch` records which dispatcher ran (`none` when the run phase
was never reached). -/
def execute (sc : String → List String → String → RunResult) (j : Job) :
    Job × Except ErrorKind (Response × Option Dispatch) :=
  if j.state ≠ JState.PRIMED then
    (j, Except.error ErrorKind.InvalidState)
  else if j.runtime.compiled then
    let c := sc "compile" (j.files.map FileSpec.name) ""
    if compile_failed c then
      (j, Except.ok ({ compile := some c, run := [],
                       verdict := { status := Verdict.COMPILATION,
                                    output := some (if c.stderr ≠ "" then c.stderr
                                                    else generic_compile_message),
                                    stdin := none, expectedOutput := none } }, none))
    else
      execute_runs sc j (some c)
  else
    execute_runs sc j none

/-- State of one output stream being drained by `safe_call`: the
accumulated buffer and whether a `SIGKILL` has been sent because a data
event found the buffer over the cap. -/
structure StreamBuf where
  buf : String
  killed : Bool
deriving DecidableEq

/-- One `data` event handler of `safe_call`:
`if (buf.length > output_max_size) proc.kill("SIGKILL"); else buf += data`.
The check is on the buffer as it stands before the chunk is appended. -/
def on_data (output_max_size : Nat) (s : StreamBuf) (data : String) : StreamBuf :=
  if s.buf.length > output_max_size then { s with killed := true }
  else { s with buf := s.buf ++ data }

/-- Deliver a sequence of data chunks to one stream handler, starting
from state `s`. -/
def drain_from (output_max_size : Nat) (s : StreamBuf) (chunks : List String) : StreamBuf :=
  chunks.foldl (on_data output_max_size) s

/-- Deliver a sequence of data chunks starting from the empty buffer, as
`safe_call` does for each of stdout and stderr. -/
def drain (output_max_size : Nat) (chunks : List String) : StreamBuf :=
  drain_from output_max_size { buf := "", killed := false } chunks

/-- The identity-range configuration consulted by `shuffle_ids`. -/
structure Config where
  runner_uid_min : Nat
  runner_uid_max : Nat
  runner_gid_min : Nat
  runner_gid_max : Nat
deriving DecidableEq

/-- The module-level mutable counters `uid` and `gid` of `job.js`. -/
structure IdPool where
  uid : Nat
  gid : Nat
deriving DecidableEq

/-- `Job.shuffle_ids`: return the identities for the current counters and
advance each counter by one modulo its range size. -/
def shuffle_ids (cfg : Config) (p : IdPool) : (Nat × Nat) × IdPool :=
  ((cfg.runner_uid_min + p.uid, cfg.runner_gid_min + p.gid),
   { uid := (p.uid + 1) % (cfg.runner_uid_max - cfg.runner_uid_min + 1),
     gid := (p.gid + 1) % (cfg.runner_gid_max - cfg.runner_gid_min + 1) })

/-- `n` consecutive identity allocations, returning the final counters. -/
def alloc_iter (cfg : Config) : Nat → IdPool → IdPool
  | 0, p => p
  | n + 1, p => alloc_iter cfg n (shuffle_ids cfg p).2

/-- The job-spec fields consumed by the `Job` constructor. -/
structure JobSpec where
  runtime : Runtime
  files : List FileSpec
  args : List String
  stdin : List String
  expected_output : Option (List String)
  main : String
deriving DecidableEq

/-- The `Job` constructor: copy the spec fields, throw when `main` is not
among the file names, and only then call `shuffle_ids` (which advances
the shared counters) and enter the `READY` state.  The second component
is the identity pool after construction. -/
def job_new (cfg : Config) (s : JobSpec) (p : IdPool) : Except String Job × IdPool :=
  let file_list := s.files.map FileSpec.name
  if s.main ∈ file_list then
    let alloc := shuffle_ids cfg p
    (Except.ok { runtime := s.runtime, files := s.files, args := s.args,
                 stdin := s.stdin, expected_output := s.expected_output,
                 main := s.main, uid := alloc.1.1, gid := alloc.1.2,
                 state := JState.READY }, alloc.2)
  else
    (Except.error "Main file will not be written to disk", p)

/-! ### Trimming lemmas -/

theorem trim_chars_idem (l : List Char) : trim_chars (trim_chars l) = trim_chars l := by
  unfold trim_chars
  have h1 : List.dropWhile js_whitespace
      (List.rdropWhile js_whitespace (List.dropWhile js_whitespace l)) =
      List.rdropWhile js_whitespace (List.dropWhile js_whitespace l) := by
    rw [List.dropWhile_eq_self_iff]
    intro hl
    have hpre := List.rdropWhile_prefix js_whitespace (List.dropWhile js_whitespace l)
    have hlen : 0 < (List.dropWhile js_whitespace l).length :=
      lt_of_lt_of_le hl hpre.length_le
    have hg := hpre.getElem (n := 0) hl
    have hnot := List.dropWhile_get_zero_not js_whitespace l hlen
    simp only [List.get_eq_getElem] at hnot ⊢
    rw [hg]
    exact hnot
  rw [h1, List.rdropWhile_idempotent]

theorem js_trim_idem (s : String) : js_trim (js_trim s) = js_trim s := by
  show String.mk (trim_chars (trim_chars s.data)) = String.mk (trim_chars s.data)
  rw [trim_chars_idem]

theorem trim_entry_idem (r : RunResult) : trim_entry (trim_entry r) = trim_entry r := by
  simp [trim_entry, js_trim_idem]

/-! ### Output-cap invariants of the stream handlers -/

theorem drain_from_cons (m : Nat) (s : StreamBuf) (c : String) (cs : List String) :
    drain_from m s (c :: cs) = drain_from m (on_data m s c) cs := rfl

theorem drain_from_len_le (m C : Nat) :
    ∀ (chunks : List String) (s : StreamBuf), (∀ c ∈ chunks, c.length ≤ C) →
      s.buf.length ≤ m + C → (drain_from m s chunks).buf.length ≤ m + C := by
  intro chunks
  induction chunks with
  | nil => intro s _ hs; exact hs
  | cons c cs ih =>
    intro s hc hs
    rw [drain_from_cons]
    refine ih (on_data m s c) (fun x hx => hc x (List.mem_cons_of_mem c hx)) ?_
    unfold on_data
    by_cases h : s.buf.length > m
    · rw [if_pos h]; exact hs
    · rw [if_neg h]
      have h1 : s.buf.length ≤ m := Nat.le_of_not_lt h
      have h2 : c.length ≤ C := hc c (List.mem_cons_self c cs)
      simp only [String.length_append]
      omega

theorem drain_from_killed_gt (m : Nat) :
    ∀ (chunks : List String) (s : StreamBuf),
      (s.killed = true → m < s.buf.length) →
      ((drain_from m s chunks).killed = true → m < (drain_from m s chunks).buf.length) := by
  intro chunks
  induction chunks with
  | nil => intro s hs; exact hs
  | cons c cs ih =>
    intro s hs
    rw [drain_from_cons]
    refine ih (on_data m s c) ?_
    unfold on_data
    by_cases h : s.buf.length > m
    · rw [if_pos h]; intro _; exact h
    · rw [if_neg h]
      intro hk
      exact absurd (hs hk) h

theorem drain_from_killed_frozen (m : Nat) :
    ∀ (chunks : List String) (s : StreamBuf), m < s.buf.length → s.killed = true →
      drain_from m s chunks = s := by
  intro chunks
  induction chunks with
  | nil => intro s _ _; rfl
  | cons c cs ih =>
    intro s hlen hk
    rw [drain_from_cons]
    have hstep : on_data m s c = s := by
      unfold on_data
      rw [if_pos hlen]
      cases s
      simp_all
    rw [hstep]
    exact ih s hlen hk

theorem drain_from_frozen (m : Nat) :
    ∀ (chunks : List String) (s : StreamBuf), m < s.buf.length →
      (drain_from m s chunks).buf = s.buf ∧
      (chunks ≠ [] → (drain_from m s chunks).killed = true) := by
  intro chunks
  cases chunks with
  | nil => intro s _; exact ⟨rfl, fun h => absurd rfl h⟩
  | cons c cs =>
    intro s hlen
    rw [drain_from_cons]
    have hstep : on_data m s c = { s with killed := true } := by
      unfold on_data
      rw [if_pos hlen]
    rw [hstep]
    have hfz := drain_from_killed_frozen m cs { s with killed := true } hlen rfl
    rw [hfz]
    exact ⟨rfl, fun _ => rfl⟩

/-- Claim C7: for every sequence of data chunks of size at most
`chunk_cap`, the buffer a stream handler of `safe_call` accumulates stays
within `output_max_size + chunk_cap`; a final buffer within
`output_max_size` means no kill was ever sent (in particular none at
exactly `output_max_size`); and once the buffer exceeds
`output_max_size`, the next chunk sends SIGKILL and no further bytes are
accumulated on that stream, the buffer keeping what was accumulated
before the cap was crossed. -/
theorem safe_call_output_cap (output_max_size chunk_cap : Nat) (chunks : List String)
    (hchunks : ∀ c ∈ chunks, c.length ≤ chunk_cap) :
    (drain output_max_size chunks).buf.length ≤ output_max_size + chunk_cap ∧
    ((drain output_max_size chunks).buf.length ≤ output_max_size →
      (drain output_max_size chunks).killed = false) ∧
    (∀ s : StreamBuf, output_max_size < s.buf.length →
      (drain_from output_max_size s chunks).buf = s.buf ∧
      (chunks ≠ [] → (drain_from output_max_size s chunks).killed = true)) := by
  refine ⟨?_, ?_, ?_⟩
  · exact drain_from_len_le output_max_size chunk_cap chunks _ hchunks (by simp)
  · intro hle
    by_contra hk
    have hk' : (drain output_max_size chunks).killed = true := by
      cases h : (drain output_max_size chunks).killed
      · exact absurd h hk
      · rfl
    have hgt := drain_from_killed_gt output_max_size chunks
      { buf := "", killed := false } (by intro h; cases h) hk'
    exact absurd hle (Nat.not_le_of_lt hgt)
  · intro s hs
    exact drain_from_frozen output_max_size chunks s hs

/-- Claim C7 witness: concrete instance with cap 2 and chunks of size at
most 3. -/
theorem safe_call_output_cap_witness :
    (∀ c ∈ ["abc", "d"], c.length ≤ 3) ∧
    (drain 2 ["abc", "d"]).buf.length ≤ 2 + 3 :=
  ⟨by decide, (safe_call_output_cap 2 3 ["abc", "d"] (by decide)).1⟩

/-! ### Identity-pool rotation -/

theorem alloc_iter_uid (cfg : Config) (n : Nat) :
    ∀ p : IdPool, p.uid < cfg.runner_uid_max - cfg.runner_uid_min + 1 →
      (alloc_iter cfg n p).uid =
        (p.uid + n) % (cfg.runner_uid_max - cfg.runner_uid_min + 1) := by
  induction n with
  | zero => intro p hp; simp [alloc_iter, Nat.mod_eq_of_lt hp]
  | succ n ih =>
    intro p hp
    have hpos : 0 < cfg.runner_uid_max - cfg.runner_uid_min + 1 := Nat.succ_pos _
    show (alloc_iter cfg n (shuffle_ids cfg p).2).uid = _
    rw [ih _ (Nat.mod_lt _ hpos)]
    show ((p.uid + 1) % (cfg.runner_uid_max - cfg.runner_uid_min + 1) + n) %
        (cfg.runner_uid_max - cfg.runner_uid_min + 1) = _
    rw [Nat.mod_add_mod]
    congr 1
    omega

theorem alloc_iter_gid (cfg : Config) (n : Nat) :
    ∀ p : IdPool, p.gid < cfg.runner_gid_max - cfg.runner_gid_min + 1 →
      (alloc_iter cfg n p).gid =
        (p.gid + n) % (cfg.runner_gid_max - cfg.runner_gid_min + 1) := by
  induction n with
  | zero => intro p hp; simp [alloc_iter, Nat.mod_eq_of_lt hp]
  | succ n ih =>
    intro p hp
    have hpos : 0 < cfg.runner_gid_max - cfg.runner_gid_min + 1 := Nat.succ_pos _
    show (alloc_iter cfg n (shuffle_ids cfg p).2).gid = _
    rw [ih _ (Nat.mod_lt _ hpos)]
    show ((p.gid + 1) % (cfg.runner_gid_max - cfg.runner_gid_min + 1) + n) %
        (cfg.runner_gid_max - cfg.runner_gid_min + 1) = _
    rw [Nat.mod_add_mod]
    congr 1
    omega

/-- Claim C8: each allocation returns `(uid_min + c_u, gid_min + c_g)` for
the current counters and advances each counter by one modulo its range
size; after exactly range-size allocations each counter returns to its
initial value. -/
theorem shuffle_ids_allocation_rotation (cfg : Config) (p : IdPool)
    (hu : p.uid < cfg.runner_uid_max - cfg.runner_uid_min + 1)
    (hg : p.gid < cfg.runner_gid_max - cfg.runner_gid_min + 1) :
    (shuffle_ids cfg p).1 = (cfg.runner_uid_min + p.uid, cfg.runner_gid_min + p.gid) ∧
    (shuffle_ids cfg p).2 =
      { uid := (p.uid + 1) % (cfg.runner_uid_max - cfg.runner_uid_min + 1),
        gid := (p.gid + 1) % (cfg.runner_gid_max - cfg.runner_gid_min + 1) } ∧
    (alloc_iter cfg (cfg.runner_uid_max - cfg.runner_uid_min + 1) p).uid = p.uid ∧
    (alloc_iter cfg (cfg.runner_gid_max - cfg.runner_gid_min + 1) p).gid = p.gid := by
  refine ⟨rfl, rfl, ?_, ?_⟩
  · rw [alloc_iter_uid cfg _ p hu, Nat.add_mod_right]
    exact Nat.mod_eq_of_lt hu
  · rw [alloc_iter_gid cfg _ p hg, Nat.add_mod_right]
    exact Nat.mod_eq_of_lt hg

/-- Claim C8 witness: a uid range of size 3 (100..102) and gid range of
size 2 (200..201), starting from the initial counters. -/
theorem shuffle_ids_allocation_rotation_witness :
    ((0 : Nat) < 102 - 100 + 1) ∧ ((0 : Nat) < 201 - 200 + 1) ∧
    (alloc_iter { runner_uid_min := 100, runner_uid_max := 102,
                  runner_gid_min := 200, runner_gid_max := 201 }
      (102 - 100 + 1) { uid := 0, gid := 0 }).uid = 0 :=
  ⟨by decide, by decide,
   (shuffle_ids_allocation_rotation
     { runner_uid_min := 100, runner_uid_max := 102,
       runner_gid_min := 200, runner_gid_max := 201 }
     { uid := 0, gid := 0 } (by decide) (by decide)).2.2.1⟩

/-! ### Constructor and lifecycle guards -/

/-- Claim C10: a spec whose `main` is not among the file names is rejected
before `shuffle_ids` runs, so the shared identity counters are unchanged. -/
theorem job_new_rejected_pool_untouched (cfg : Config) (s : JobSpec) (p : IdPool)
    (h : s.main ∉ s.files.map FileSpec.name) :
    (job_new cfg s p).1 = Except.error "Main file will not be written to disk" ∧
    (job_new cfg s p).2 = p := by
  simp [job_new, h]

/-- Claim C10 witness: `main` equal to `b.py` with only `a.py` on disk;
the pool stays at `(5, 7)`. -/
theorem job_new_rejected_pool_untouched_witness :
    ("b.py" ∉ List.map FileSpec.name [({ name := "a.py", content := "x" } : FileSpec)]) ∧
    (job_new { runner_uid_min := 0, runner_uid_max := 0,
               runner_gid_min := 0, runner_gid_max := 0 }
      { runtime := { language := "python3", compiled := false },
        files := [{ name := "a.py", content := "x" }], args := [], stdin := [],
        expected_output := none, main := "b.py" }
      { uid := 5, gid := 7 }).2 = { uid := 5, gid := 7 } :=
  ⟨by decide,
   (job_new_rejected_pool_untouched
     { runner_uid_min := 0, runner_uid_max := 0,
       runner_gid_min := 0, runner_gid_max := 0 }
     { runtime := { language := "python3", compiled := false },
       files := [{ name := "a.py", content := "x" }], args := [], stdin := [],
       expected_output := none, main := "b.py" }
     { uid := 5, gid := 7 } (by decide)).2⟩

/-- Claim C4 counterexample: `prime` invoked on a job in the `EXECUTED`
state (whose workspace directory no longer exists, as after `cleanup`)
does not fail at all, let alone with an InvalidState error: the source's
`prime` has no state guard and unconditionally transitions to `PRIMED`. -/
theorem prime_performs_no_state_check :
    (prime { runtime := { language := "python3", compiled := false }, files := [], args := [],
             stdin := [], expected_output := none, main := "a.py", uid := 0, gid := 0,
             state := JState.EXECUTED } false).2 = Except.ok () ∧
    (prime { runtime := { language := "python3", compiled := false }, files := [], args := [],
             stdin := [], expected_output := none, main := "a.py", uid := 0, gid := 0,
             state := JState.EXECUTED } false).1.state = JState.PRIMED :=
  ⟨rfl, rfl⟩

/-- Claim C4 (amended): `execute` fails with an InvalidState error from
any state other than `PRIMED`, leaving the job unchanged; `prime`,
however, performs no state check and never produces an InvalidState
error (its only failures are filesystem ones). -/
theorem lifecycle_state_guards :
    (∀ (sc : String → List String → String → RunResult) (j : Job),
      j.state ≠ JState.PRIMED → execute sc j = (j, Except.error ErrorKind.InvalidState)) ∧
    (∀ (j : Job) (dir_exists : Bool),
      (prime j dir_exists).2 ≠ Except.error ErrorKind.InvalidState) := by
  constructor
  · intro sc j h
    unfold execute
    rw [if_pos h]
  · intro j d
    cases d <;> simp [prime]

/-- Claim C4 witness: `execute` on a `READY` job fails with InvalidState
and returns the job unchanged. -/
theorem lifecycle_state_guards_witness :
    execute (fun _ _ _ => { stdout := "", stderr := "", code := none, signal := none, stdin := "" })
        { runtime := { language := "python3", compiled := false }, files := [], args := [],
          stdin := [], expected_output := none, main := "a.py", uid := 0, gid := 0,
          state := JState.READY } =
      ({ runtime := { language := "python3", compiled := false }, files := [], args := [],
         stdin := [], expected_output := none, main := "a.py", uid := 0, gid := 0,
         state := JState.READY }, Except.error ErrorKind.InvalidState) :=
  lifecycle_state_guards.1 _ _ (by decide)

/-! ### Equation lemmas for the adjudicator loop -/

theorem eval_cases_nil (eo : Option (List String)) (stdin : List String) (i : Nat) :
    eval_cases eo stdin i [] = ([], none) := rfl

theorem eval_cases_cons_stderr (eo : Option (List String)) (stdin : List String)
    (i : Nat) (r : RunResult) (rs : List RunResult) (h : r.stderr ≠ "") :
    eval_cases eo stdin i (r :: rs) =
      (r :: rs, some { status := Verdict.RUNTIME, stdout := some r.stderr,
                       stdin := some (stdin.getD i ""),
                       expected_output := eo.map (fun l => l.getD i "") }) := by
  simp only [eval_cases]
  rw [if_pos h]

theorem eval_cases_cons_sigkill (eo : Option (List String)) (stdin : List String)
    (i : Nat) (r : RunResult) (rs : List RunResult)
    (h1 : r.stderr = "") (h2 : r.signal = some "SIGKILL") :
    eval_cases eo stdin i (r :: rs) =
      (r :: rs, some { status := Verdict.TLE, stdout := some r.stdout,
                       stdin := some (stdin.getD i ""),
                       expected_output := eo.map (fun l => l.getD i "") }) := by
  simp only [eval_cases]
  rw [if_neg (not_not_intro h1), if_pos h2]

theorem eval_cases_cons_wa (l : List String) (stdin : List String)
    (i : Nat) (r : RunResult) (rs : List RunResult)
    (h1 : r.stderr = "") (h2 : r.signal ≠ some "SIGKILL")
    (h3 : js_trim r.stdout ≠ l.getD i "") :
    eval_cases (some l) stdin i (r :: rs) =
      (trim_entry r :: rs,
       some { status := Verdict.WA, stdout := some (js_trim r.stdout),
              stdin := some (stdin.getD i ""),
              expected_output := some (js_trim (l.getD i "")) }) := by
  simp only [eval_cases]
  rw [if_neg (not_not_intro h1), if_neg h2]
  rw [if_pos (show (trim_entry r).stdout ≠ l.getD i "" from h3)]
  rfl

theorem eval_cases_cons_pass_some (l : List String) (stdin : List String)
    (i : Nat) (r : RunResult) (rs : List RunResult)
    (h1 : r.stderr = "") (h2 : r.signal ≠ some "SIGKILL")
    (h3 : js_trim r.stdout = l.getD i "") :
    eval_cases (some l) stdin i (r :: rs) =
      (trim_entry r :: (eval_cases (some l) stdin (i + 1) rs).1,
       (eval_cases (some l) stdin (i + 1) rs).2) := by
  simp only [eval_cases]
  rw [if_neg (not_not_intro h1), if_neg h2]
  rw [if_neg (show ¬((trim_entry r).stdout ≠ l.getD i "") from not_not_intro h3)]

theorem eval_cases_cons_pass_none (stdin : List String)
    (i : Nat) (r : RunResult) (rs : List RunResult)
    (h1 : r.stderr = "") (h2 : r.signal ≠ some "SIGKILL") :
    eval_cases none stdin i (r :: rs) =
      (r :: (eval_cases none stdin (i + 1) rs).1,
       (eval_cases none stdin (i + 1) rs).2) := by
  simp only [eval_cases]
  rw [if_neg (not_not_intro h1), if_neg h2]

theorem case_status_stderr (eo : Option (List String)) (i : Nat) (r : RunResult)
    (h : r.stderr ≠ "") : case_status eo i r = some Verdict.RUNTIME := by
  unfold case_status
  rw [if_pos h]

theorem case_status_sigkill (eo : Option (List String)) (i : Nat) (r : RunResult)
    (h1 : r.stderr = "") (h2 : r.signal = some "SIGKILL") :
    case_status eo i r = some Verdict.TLE := by
  unfold case_status
  rw [if_neg (not_not_intro h1), if_pos h2]

theorem case_status_wa (l : List String) (i : Nat) (r : RunResult)
    (h1 : r.stderr = "") (h2 : r.signal ≠ some "SIGKILL")
    (h3 : js_trim r.stdout ≠ l.getD i "") :
    case_status (some l) i r = some Verdict.WA := by
  unfold case_status
  rw [if_neg (not_not_intro h1), if_neg h2]
  show (if js_trim r.stdout ≠ l.getD i "" then some Verdict.WA else none) = some Verdict.WA
  rw [if_pos h3]

theorem case_status_pass_some (l : List String) (i : Nat) (r : RunResult)
    (h1 : r.stderr = "") (h2 : r.signal ≠ some "SIGKILL")
    (h3 : js_trim r.stdout = l.getD i "") :
    case_status (some l) i r = none := by
  unfold case_status
  rw [if_neg (not_not_intro h1), if_neg h2]
  show (if js_trim r.stdout ≠ l.getD i "" then some Verdict.WA else none) = none
  rw [if_neg (not_not_intro h3)]

theorem case_status_pass_none (i : Nat) (r : RunResult)
    (h1 : r.stderr = "") (h2 : r.signal ≠ some "SIGKILL") :
    case_status none i r = none := by
  unfold case_status
  rw [if_neg (not_not_intro h1), if_neg h2]

theorem case_status_none_elim (eo : Option (List String)) (i : Nat) (r : RunResult)
    (h : case_status eo i r = none) :
    r.stderr = "" ∧ r.signal ≠ some "SIGKILL" ∧
      (∀ l, eo = some l → js_trim r.stdout = l.getD i "") := by
  by_cases h1 : r.stderr ≠ ""
  · rw [case_status_stderr eo i r h1] at h
    cases h
  · push_neg at h1
    by_cases h2 : r.signal = some "SIGKILL"
    · rw [case_status_sigkill eo i r h1 h2] at h
      cases h
    · refine ⟨h1, h2, ?_⟩
      intro l hl
      subst hl
      by_cases h3 : js_trim r.stdout = l.getD i ""
      · exact h3
      · rw [case_status_wa l i r h1 h2 h3] at h
        cases h

/-! ### The adjudicator on a fully accepting run -/

theorem eval_cases_all_pass (eo : Option (List String)) (stdin : List String) :
    ∀ (rest : List RunResult) (i : Nat),
      (∀ k (hk : k < rest.length), case_status eo (i + k) (rest.get ⟨k, hk⟩) = none) →
      eval_cases eo stdin i rest = (pass_map eo rest, none) := by
  intro rest
  induction rest with
  | nil =>
    intro i _
    cases eo <;> simp [eval_cases, pass_map]
  | cons r rs ih =>
    intro i h
    have h0 : case_status eo i r = none := by
      have h00 := h 0 (Nat.succ_pos rs.length)
      rw [Nat.add_zero] at h00
      exact h00
    obtain ⟨h1, h2, h3⟩ := case_status_none_elim eo i r h0
    have htail : ∀ k (hk : k < rs.length),
        case_status eo ((i + 1) + k) (rs.get ⟨k, hk⟩) = none := by
      intro k hk
      have h00 := h (k + 1) (Nat.succ_lt_succ hk)
      have heq : i + (k + 1) = (i + 1) + k := by omega
      rw [heq] at h00
      exact h00
    cases eo with
    | none =>
      rw [eval_cases_cons_pass_none stdin i r rs h1 h2, ih (i + 1) htail]
      simp [pass_map]
    | some l =>
      rw [eval_cases_cons_pass_some l stdin i r rs h1 h2 (h3 l rfl), ih (i + 1) htail]
      simp [pass_map]

/-! ### The adjudicator on the first non-accepting case -/

theorem eval_cases_first_fail (eo : Option (List String)) (stdin : List String) :
    ∀ (rest : List RunResult) (i k : Nat) (hk : k < rest.length),
      (∀ j (hj : j < k), case_status eo (i + j) (rest.get ⟨j, lt_trans hj hk⟩) = none) →
      case_status eo (i + k) (rest.get ⟨k, hk⟩) ≠ none →
      ∃ v, (eval_cases eo stdin i rest).2 = some v ∧
        some v.status = case_status eo (i + k) (rest.get ⟨k, hk⟩) := by
  intro rest
  induction rest with
  | nil => intro i k hk; exact absurd hk (Nat.not_lt_zero k)
  | cons r rs ih =>
    intro i k hk hprev hfail
    cases k with
    | zero =>
      rw [show (r :: rs).get ⟨0, hk⟩ = r from rfl, Nat.add_zero] at hfail ⊢
      by_cases h1 : r.stderr ≠ ""
      · exact ⟨_, by rw [eval_cases_cons_stderr eo stdin i r rs h1],
          by rw [case_status_stderr eo i r h1]⟩
      · push_neg at h1
        by_cases h2 : r.signal = some "SIGKILL"
        · exact ⟨_, by rw [eval_cases_cons_sigkill eo stdin i r rs h1 h2],
            by rw [case_status_sigkill eo i r h1 h2]⟩
        · cases eo with
          | none => exact absurd (case_status_pass_none i r h1 h2) hfail
          | some l =>
            by_cases h3 : js_trim r.stdout ≠ l.getD i ""
            · exact ⟨_, by rw [eval_cases_cons_wa l stdin i r rs h1 h2 h3],
                by rw [case_status_wa l i r h1 h2 h3]⟩
            · push_neg at h3
              exact absurd (case_status_pass_some l i r h1 h2 h3) hfail
    | succ k' =>
      have h0 : case_status eo i r = none := by
        have h00 := hprev 0 (Nat.succ_pos k')
        rw [Nat.add_zero] at h00
        exact h00
      obtain ⟨h1, h2, h3⟩ := case_status_none_elim eo i r h0
      have hk' : k' < rs.length := Nat.lt_of_succ_lt_succ hk
      have hprev' : ∀ j (hj : j < k'),
          case_status eo ((i + 1) + j) (rs.get ⟨j, lt_trans hj hk'⟩) = none := by
        intro j hj
        have h00 := hprev (j + 1) (Nat.succ_lt_succ hj)
        have heq : i + (j + 1) = (i + 1) + j := by omega
        rw [heq] at h00
        exact h00
      have hfail' : case_status eo ((i + 1) + k') (rs.get ⟨k', hk'⟩) ≠ none := by
        have heq : (i + 1) + k' = i + (k' + 1) := by omega
        rw [heq]
        exact hfail
      obtain ⟨v, hv, hs⟩ := ih (i + 1) k' hk' hprev' hfail'
      have hstep : (eval_cases eo stdin i (r :: rs)).2 = (eval_cases eo stdin (i + 1) rs).2 := by
        cases eo with
        | none => rw [eval_cases_cons_pass_none stdin i r rs h1 h2]
        | some l => rw [eval_cases_cons_pass_some l stdin i r rs h1 h2 (h3 l rfl)]
      refine ⟨v, by rw [hstep]; exact hv, ?_⟩
      rw [hs]
      have heq : (i + 1) + k' = i + (k' + 1) := by omega
      rw [heq]
      rfl

/-! ### Idempotence and frame of the adjudicator -/

theorem eval_cases_idem (eo : Option (List String)) (stdin : List String) :
    ∀ (rest : List RunResult) (i : Nat),
      eval_cases eo stdin i (eval_cases eo stdin i rest).1 = eval_cases eo stdin i rest := by
  intro rest
  induction rest with
  | nil => intro i; rfl
  | cons r rs ih =>
    intro i
    by_cases h1 : r.stderr ≠ ""
    · rw [eval_cases_cons_stderr eo stdin i r rs h1]
      exact eval_cases_cons_stderr eo stdin i r rs h1
    · push_neg at h1
      by_cases h2 : r.signal = some "SIGKILL"
      · rw [eval_cases_cons_sigkill eo stdin i r rs h1 h2]
        exact eval_cases_cons_sigkill eo stdin i r rs h1 h2
      · cases eo with
        | none =>
          rw [eval_cases_cons_pass_none stdin i r rs h1 h2]
          rw [eval_cases_cons_pass_none stdin i r ((eval_cases none stdin (i + 1) rs).1) h1 h2]
          rw [ih (i + 1)]
        | some l =>
          by_cases h3 : js_trim r.stdout ≠ l.getD i ""
          · rw [eval_cases_cons_wa l stdin i r rs h1 h2 h3]
            have h1' : (trim_entry r).stderr = "" := h1
            have h2' : (trim_entry r).signal ≠ some "SIGKILL" := h2
            have hs : (trim_entry r).stdout = js_trim r.stdout := rfl
            have h3' : js_trim (trim_entry r).stdout ≠ l.getD i "" := by
              rw [hs, js_trim_idem]
              exact h3
            rw [eval_cases_cons_wa l stdin i (trim_entry r) rs h1' h2' h3', trim_entry_idem,
              hs, js_trim_idem]
          · push_neg at h3
            rw [eval_cases_cons_pass_some l stdin i r rs h1 h2 h3]
            have h1' : (trim_entry r).stderr = "" := h1
            have h2' : (trim_entry r).signal ≠ some "SIGKILL" := h2
            have hs : (trim_entry r).stdout = js_trim r.stdout := rfl
            have h3' : js_trim (trim_entry r).stdout = l.getD i "" := by
              rw [hs, js_trim_idem]
              exact h3
            rw [eval_cases_cons_pass_some l stdin i (trim_entry r)
              ((eval_cases (some l) stdin (i + 1) rs).1) h1' h2' h3']
            rw [ih (i + 1), trim_entry_idem]

theorem eval_cases_entries (eo : Option (List String)) (stdin : List String) :
    ∀ (rest : List RunResult) (i : Nat),
      List.Forall₂ (fun a b => b = a ∨ b = trim_entry a) rest (eval_cases eo stdin i rest).1 := by
  intro rest
  induction rest with
  | nil => intro i; exact List.Forall₂.nil
  | cons r rs ih =>
    intro i
    have hrefl : List.Forall₂ (fun a b => b = a ∨ b = trim_entry a) rs rs :=
      List.forall₂_same.mpr (fun x _ => Or.inl rfl)
    by_cases h1 : r.stderr ≠ ""
    · rw [eval_cases_cons_stderr eo stdin i r rs h1]
      exact List.Forall₂.cons (Or.inl rfl) hrefl
    · push_neg at h1
      by_cases h2 : r.signal = some "SIGKILL"
      · rw [eval_cases_cons_sigkill eo stdin i r rs h1 h2]
        exact List.Forall₂.cons (Or.inl rfl) hrefl
      · cases eo with
        | none =>
          rw [eval_cases_cons_pass_none stdin i r rs h1 h2]
          exact List.Forall₂.cons (Or.inl rfl) (ih (i + 1))
        | some l =>
          by_cases h3 : js_trim r.stdout ≠ l.getD i ""
          · rw [eval_cases_cons_wa l stdin i r rs h1 h2 h3]
            exact List.Forall₂.cons (Or.inr rfl) hrefl
          · push_neg at h3
            rw [eval_cases_cons_pass_some l stdin i r rs h1 h2 h3]
            exact List.Forall₂.cons (Or.inr rfl) (ih (i + 1))

/-! ### Facts about `evaluate` -/

theorem evaluate_run_eq (eo : Option (List String)) (stdin : List String)
    (c : Option RunResult) (run : List RunResult) :
    (evaluate eo stdin c run).run = (eval_cases eo stdin 0 run).1 := by
  unfold evaluate
  cases h : (eval_cases eo stdin 0 run).2 <;> simp [h]

theorem evaluate_compile_eq (eo : Option (List String)) (stdin : List String)
    (c : Option RunResult) (run : List RunResult) :
    (evaluate eo stdin c run).compile = c := by
  unfold evaluate
  cases h : (eval_cases eo stdin 0 run).2 <;> simp [h]

theorem evaluate_idem (eo : Option (List String)) (stdin : List String)
    (c : Option RunResult) (run : List RunResult) :
    evaluate eo stdin c (evaluate eo stdin c run).run = evaluate eo stdin c run := by
  rw [evaluate_run_eq]
  unfold evaluate
  rw [eval_cases_idem]

theorem eval_cases_verdict_shape (eo : Option (List String)) (stdin : List String) :
    ∀ (rest : List RunResult) (i : Nat) (v : VerdictObj),
      (eval_cases eo stdin i rest).2 = some v →
      (v.status = Verdict.RUNTIME ∨ v.status = Verdict.TLE ∨ v.status = Verdict.WA) ∧
        v.output = none ∧ v.expectedOutput = none := by
  intro rest
  induction rest with
  | nil => intro i v h; simp [eval_cases] at h
  | cons r rs ih =>
    intro i v h
    by_cases h1 : r.stderr ≠ ""
    · rw [eval_cases_cons_stderr eo stdin i r rs h1] at h
      cases h
      exact ⟨Or.inl rfl, rfl, rfl⟩
    · push_neg at h1
      by_cases h2 : r.signal = some "SIGKILL"
      · rw [eval_cases_cons_sigkill eo stdin i r rs h1 h2] at h
        cases h
        exact ⟨Or.inr (Or.inl rfl), rfl, rfl⟩
      · cases eo with
        | none =>
          rw [eval_cases_cons_pass_none stdin i r rs h1 h2] at h
          exact ih (i + 1) v h
        | some l =>
          by_cases h3 : js_trim r.stdout ≠ l.getD i ""
          · rw [eval_cases_cons_wa l stdin i r rs h1 h2 h3] at h
            cases h
            exact ⟨Or.inr (Or.inr rfl), rfl, rfl⟩
          · push_neg at h3
            rw [eval_cases_cons_pass_some l stdin i r rs h1 h2 h3] at h
            exact ih (i + 1) v h

theorem evaluate_status_not_compilation (eo : Option (List String)) (stdin : List String)
    (c : Option RunResult) (run : List RunResult) :
    (evaluate eo stdin c run).verdict.status ≠ Verdict.COMPILATION := by
  unfold evaluate
  cases h : (eval_cases eo stdin 0 run).2 with
  | none => simp [h]
  | some v =>
    simp only [h]
    obtain ⟨hs, _, _⟩ := eval_cases_verdict_shape eo stdin run 0 v h
    rcases hs with h' | h' | h' <;> simp [h']

theorem evaluate_no_compile_keys (eo : Option (List String)) (stdin : List String)
    (c : Option RunResult) (run : List RunResult) :
    (evaluate eo stdin c run).verdict.output = none ∧
    (evaluate eo stdin c run).verdict.expectedOutput = none := by
  unfold evaluate
  cases h : (eval_cases eo stdin 0 run).2 with
  | none => simp [h]
  | some v =>
    simp only [h]
    obtain ⟨_, ho, he⟩ := eval_cases_verdict_shape eo stdin run 0 v h
    exact ⟨ho, he⟩

/-! ### The adjudication claims -/

/-- Claim C1 (amended): the adjudicator returns the first non-accepting
verdict in ascending index order, applying within each index the fixed
priority RUNTIME (stderr non-empty) > TLE (signal SIGKILL) > WA
(mismatch); if every test case is accepting it returns AC carrying the
first case's stdout — trimmed of leading and trailing whitespace when
`expected_output` was provided — and the first stdin (or nulls when
`run` is empty), with `expected_output` null. -/
theorem evaluate_adjudication_order (eo : Option (List String)) (stdin : List String)
    (c : Option RunResult) (run : List RunResult)
    (hlen : run.length = stdin.length) :
    ((∀ k (hk : k < run.length), case_status eo k (run.get ⟨k, hk⟩) = none) →
      (evaluate eo stdin c run).verdict =
        { status := Verdict.AC,
          stdout := (pass_map eo run).head?.map RunResult.stdout,
          stdin := stdin.head?,
          expected_output := none }) ∧
    (run = [] →
      (evaluate eo stdin c run).verdict =
        { status := Verdict.AC, stdout := none, stdin := none, expected_output := none }) ∧
    (∀ k (hk : k < run.length),
      (∀ j (hj : j < k), case_status eo j (run.get ⟨j, lt_trans hj hk⟩) = none) →
      case_status eo k (run.get ⟨k, hk⟩) ≠ none →
      some (evaluate eo stdin c run).verdict.status = case_status eo k (run.get ⟨k, hk⟩)) := by
  refine ⟨?_, ?_, ?_⟩
  · intro hall
    have hall0 : ∀ k (hk : k < run.length), case_status eo (0 + k) (run.get ⟨k, hk⟩) = none := by
      intro k hk
      rw [Nat.zero_add]
      exact hall k hk
    have hpass := eval_cases_all_pass eo stdin run 0 hall0
    simp only [evaluate]
    rw [hpass]
  · intro hrun
    subst hrun
    have hstdin : stdin = [] := List.length_eq_zero.mp hlen.symm
    subst hstdin
    rfl
  · intro k hk hprev hfail
    have hprev0 : ∀ j (hj : j < k), case_status eo (0 + j) (run.get ⟨j, lt_trans hj hk⟩) = none := by
      intro j hj
      rw [Nat.zero_add]
      exact hprev j hj
    have hfail0 : case_status eo (0 + k) (run.get ⟨k, hk⟩) ≠ none := by
      rw [Nat.zero_add]
      exact hfail
    obtain ⟨v, hv, hs⟩ := eval_cases_first_fail eo stdin run 0 k hk hprev0 hfail0
    rw [Nat.zero_add] at hs
    simp only [evaluate]
    rw [hv]
    exact hs

/-- Claim C1 witness: a single failing case (non-empty stderr) is
adjudicated to the status the per-case priority assigns it. -/
theorem evaluate_adjudication_order_witness :
    ([({ stdout := "", stderr := "boom", code := some 1, signal := none,
         stdin := "s" } : RunResult)].length = ["s"].length) ∧
    some (evaluate none ["s"] none
      [{ stdout := "", stderr := "boom", code := some 1, signal := none,
         stdin := "s" }]).verdict.status =
      case_status none 0
        { stdout := "", stderr := "boom", code := some 1, signal := none, stdin := "s" } :=
  ⟨rfl,
   (evaluate_adjudication_order none ["s"] none
     [{ stdout := "", stderr := "boom", code := some 1, signal := none, stdin := "s" }]
     rfl).2.2 0 (by decide) (fun j hj => absurd hj (Nat.not_lt_zero j)) (by decide)⟩

/-- Claim C1 counterexample: with `expected_output` provided and every
case accepting, the AC verdict does not carry the first case's stdout
as produced by the run (here `" x "`): it carries the in-place trimmed
string `"x"`. -/
theorem evaluate_ac_carries_trimmed_stdout :
    (evaluate (some ["x"]) ["s"] none
      [{ stdout := " x ", stderr := "", code := some 0, signal := none,
         stdin := "s" }]).verdict.status = Verdict.AC ∧
    (evaluate (some ["x"]) ["s"] none
      [{ stdout := " x ", stderr := "", code := some 0, signal := none,
         stdin := "s" }]).verdict.stdout = some "x" ∧
    (evaluate (some ["x"]) ["s"] none
      [{ stdout := " x ", stderr := "", code := some 0, signal := none,
         stdin := "s" }]).verdict.stdout ≠ some " x " := by
  decide

/-- Claim C2: the wrong-answer comparison is NOT between the two trimmed
strings.  Here the produced stdout is `"hi"` and the expected output is
`"hi "`; the two trimmed strings are equal, yet the adjudicator emits WA
(it compares the trimmed stdout against the raw `expected_output[i]`),
carrying the trimmed stdout, `stdin[i]` and the trimmed expected
output. -/
theorem evaluate_wa_on_trimmed_equal_outputs :
    js_trim "hi" = js_trim "hi " ∧
    (evaluate (some ["hi "]) ["x"] none
      [{ stdout := "hi", stderr := "", code := some 0, signal := none,
         stdin := "x" }]).verdict =
      { status := Verdict.WA, stdout := some "hi", stdin := some "x",
        expected_output := some "hi" } := by
  decide

/-- Claim C5 counterexample: adjudication is not frameless — it trims
`run[0].stdout` in place, so the `run` array it hands back differs from
the one it was given. -/
theorem evaluate_mutates_run_array :
    (evaluate (some ["a"]) ["s"] none
      [{ stdout := " a ", stderr := "", code := some 0, signal := none,
         stdin := "s" }]).run ≠
      [{ stdout := " a ", stderr := "", code := some 0, signal := none, stdin := "s" }] := by
  decide

/-- Claim C5 (amended): adjudication is deterministic in
`(run, compile, expected_output, stdin)`, and calling it again on the
`run` array it produced yields the identical response (so a second call
on the same job gives the same verdict); but it is not frameless: each
entry of the returned `run` array is the input entry either unchanged or
with its stdout trimmed in place.  The `compile` input is passed through
unchanged. -/
theorem evaluate_pure_frame (eo : Option (List String)) (stdin : List String)
    (c : Option RunResult) (run : List RunResult) :
    evaluate eo stdin c (evaluate eo stdin c run).run = evaluate eo stdin c run ∧
    List.Forall₂ (fun a b => b = a ∨ b = trim_entry a) run (evaluate eo stdin c run).run ∧
    (evaluate eo stdin c run).compile = c := by
  refine ⟨evaluate_idem eo stdin c run, ?_, evaluate_compile_eq eo stdin c run⟩
  rw [evaluate_run_eq]
  exact eval_cases_entries eo stdin run 0

/-! ### Equation lemmas for `execute` -/

theorem execute_compiled_failed_eq (sc : String → List String → String → RunResult) (j : Job)
    (hstate : j.state = JState.PRIMED) (hcomp : j.runtime.compiled = true)
    (hfail : compile_failed (sc "compile" (j.files.map FileSpec.name) "") = true) :
    execute sc j =
      (j, Except.ok
        ({ compile := some (sc "compile" (j.files.map FileSpec.name) ""), run := [],
           verdict := { status := Verdict.COMPILATION,
                        output := some
                          (if (sc "compile" (j.files.map FileSpec.name) "").stderr ≠ ""
                           then (sc "compile" (j.files.map FileSpec.name) "").stderr
                           else generic_compile_message),
                        stdin := none, expectedOutput := none } }, none)) := by
  simp only [execute]
  rw [if_neg (not_not_intro hstate), if_pos hcomp, if_pos hfail]

theorem execute_run_phase_eq (sc : String → List String → String → RunResult) (j : Job)
    (hstate : j.state = JState.PRIMED)
    (hok : j.runtime.compiled = true →
      compile_failed (sc "compile" (j.files.map FileSpec.name) "") = false) :
    execute sc j = execute_runs sc j
      (if j.runtime.compiled then some (sc "compile" (j.files.map FileSpec.name) "")
       else none) := by
  simp only [execute]
  rw [if_neg (not_not_intro hstate)]
  by_cases hcomp : j.runtime.compiled = true
  · rw [if_pos hcomp, if_pos hcomp,
      if_neg (show ¬(compile_failed (sc "compile" (j.files.map FileSpec.name) "") = true) by
        rw [hok hcomp]
        exact Bool.false_ne_true)]
  · rw [if_neg hcomp, if_neg hcomp]

theorem execute_runs_java (sc : String → List String → String → RunResult) (j : Job)
    (c : Option RunResult) (hl : j.runtime.language = "java") :
    execute_runs sc j c =
      ({ j with main := (if j.runtime.compiled then slice_drop5 j.main else j.main),
                state := JState.EXECUTED },
       Except.ok (evaluate j.expected_output j.stdin c
         (run_in_band
           (fun s => sc "run"
             ((if j.runtime.compiled then slice_drop5 j.main else j.main) :: j.args) s)
           j.stdin),
        some Dispatch.serial)) := by
  simp only [execute_runs]
  rw [if_pos hl]

theorem execute_runs_other (sc : String → List String → String → RunResult) (j : Job)
    (c : Option RunResult) (hl : j.runtime.language ≠ "java") :
    execute_runs sc j c =
      ({ j with state := JState.EXECUTED },
       Except.ok (evaluate j.expected_output j.stdin c
         (run_in_parallel (fun s => sc "run" (j.main :: j.args) s) j.stdin),
        some Dispatch.parallel)) := by
  simp only [execute_runs]
  rw [if_neg hl]

theorem run_in_band_eq_parallel (call : String → RunResult) :
    ∀ L : List String, run_in_band call L = run_in_parallel call L := by
  intro L
  induction L with
  | nil => rfl
  | cons s rest ih =>
    show call s :: run_in_band call rest = call s :: rest.map call
    rw [ih]
    rfl

/-! ### The `execute` claims -/

/-- Claim C3: for a compiled runtime in the `PRIMED` state, `execute`
short-circuits with a COMPILATION verdict exactly when the compile
result has non-empty stderr or was SIGKILLed; the verdict carries the
compile stderr (or the generic message when the stderr is empty), the
returned `run` list is empty, and no run phase is dispatched; when the
compile result is clean, the run phase runs and the verdict is never
COMPILATION. -/
theorem execute_compilation_short_circuit (sc : String → List String → String → RunResult)
    (j : Job) (c : RunResult)
    (hstate : j.state = JState.PRIMED) (hcomp : j.runtime.compiled = true)
    (hc : sc "compile" (j.files.map FileSpec.name) "" = c) :
    (compile_failed c = true →
      execute sc j =
        (j, Except.ok
          ({ compile := some c, run := [],
             verdict := { status := Verdict.COMPILATION,
                          output := some (if c.stderr ≠ "" then c.stderr
                                          else generic_compile_message),
                          stdin := none, expectedOutput := none } }, none))) ∧
    (compile_failed c = false →
      ∃ j2 resp d, execute sc j = (j2, Except.ok (resp, some d)) ∧
        resp.verdict.status ≠ Verdict.COMPILATION) := by
  subst hc
  constructor
  · intro hfail
    exact execute_compiled_failed_eq sc j hstate hcomp hfail
  · intro hok
    rw [execute_run_phase_eq sc j hstate (fun _ => hok)]
    by_cases hl : j.runtime.language = "java"
    · rw [execute_runs_java sc j _ hl]
      exact ⟨_, _, _, rfl, evaluate_status_not_compilation _ _ _ _⟩
    · rw [execute_runs_other sc j _ hl]
      exact ⟨_, _, _, rfl, evaluate_status_not_compilation _ _ _ _⟩

/-- Claim C3 witness: a compile step that writes `syntax error` to stderr
short-circuits execution. -/
theorem execute_compilation_short_circuit_witness :
    compile_failed { stdout := "", stderr := "syntax error", code := some 1,
                     signal := none, stdin := "" } = true ∧
    execute (fun _ _ _ => { stdout := "", stderr := "syntax error", code := some 1,
                            signal := none, stdin := "" })
        { runtime := { language := "c", compiled := true },
          files := [{ name := "a.c", content := "x" }], args := [], stdin := ["s"],
          expected_output := none, main := "a.c", uid := 0, gid := 0,
          state := JState.PRIMED } =
      ({ runtime := { language := "c", compiled := true },
         files := [{ name := "a.c", content := "x" }], args := [], stdin := ["s"],
         expected_output := none, main := "a.c", uid := 0, gid := 0,
         state := JState.PRIMED },
       Except.ok
         ({ compile := some { stdout := "", stderr := "syntax error", code := some 1,
                              signal := none, stdin := "" },
            run := [],
            verdict := { status := Verdict.COMPILATION,
                         output := some (if ("syntax error" : String) ≠ "" then "syntax error"
                                         else generic_compile_message),
                         stdin := none, expectedOutput := none } }, none)) :=
  ⟨by decide,
   (execute_compilation_short_circuit
     (fun _ _ _ => { stdout := "", stderr := "syntax error", code := some 1,
                     signal := none, stdin := "" })
     { runtime := { language := "c", compiled := true },
       files := [{ name := "a.c", content := "x" }], args := [], stdin := ["s"],
       expected_output := none, main := "a.c", uid := 0, gid := 0,
       state := JState.PRIMED }
     { stdout := "", stderr := "syntax error", code := some 1, signal := none, stdin := "" }
     rfl rfl rfl).1 (by decide)⟩

/-- Claim C6: the final five characters are stripped from `main` before
the run phase iff the language is java and the runtime is compiled; the
runs are dispatched through the serial dispatcher exactly when the
language is java and through the parallel one otherwise; and the two
dispatchers produce the same `run` list, element by element in stdin
order. -/
theorem execute_java_quirk (sc : String → List String → String → RunResult) (j : Job)
    (hstate : j.state = JState.PRIMED)
    (hok : j.runtime.compiled = true →
      compile_failed (sc "compile" (j.files.map FileSpec.name) "") = false) :
    (execute sc j).1.main =
      (if j.runtime.language = "java" ∧ j.runtime.compiled = true
       then slice_drop5 j.main else j.main) ∧
    (execute sc j).2 =
      Except.ok
        (evaluate j.expected_output j.stdin
          (if j.runtime.compiled then some (sc "compile" (j.files.map FileSpec.name) "")
           else none)
          (run_in_parallel (fun s => sc "run" ((execute sc j).1.main :: j.args) s) j.stdin),
         some (if j.runtime.language = "java" then Dispatch.serial else Dispatch.parallel)) ∧
    (∀ (call : String → RunResult) (L : List String),
      run_in_band call L = run_in_parallel call L) := by
  rw [execute_run_phase_eq sc j hstate hok]
  by_cases hl : j.runtime.language = "java"
  · rw [execute_runs_java sc j _ hl]
    refine ⟨by simp [hl], ?_, fun call L => run_in_band_eq_parallel call L⟩
    rw [if_pos hl, run_in_band_eq_parallel]
  · rw [execute_runs_other sc j _ hl]
    refine ⟨by simp [hl], ?_, fun call L => run_in_band_eq_parallel call L⟩
    rw [if_neg hl]

/-- Claim C6 witness: a compiled java job has its entry file
`Main.java` trimmed to `Main` before the run phase. -/
theorem execute_java_quirk_witness :
    (execute (fun _ _ s => { stdout := s, stderr := "", code := some 0, signal := none,
                             stdin := s })
      { runtime := { language := "java", compiled := true },
        files := [{ name := "Main.java", content := "c" }], args := [], stdin := ["a"],
        expected_output := none, main := "Main.java", uid := 0, gid := 0,
        state := JState.PRIMED }).1.main = "Main" := by
  have h := execute_java_quirk
    (fun _ _ s => { stdout := s, stderr := "", code := some 0, signal := none, stdin := s })
    { runtime := { language := "java", compiled := true },
      files := [{ name := "Main.java", content := "c" }], args := [], stdin := ["a"],
      expected_output := none, main := "Main.java", uid := 0, gid := 0,
      state := JState.PRIMED } rfl (fun _ => by decide)
  rw [h.1]
  decide

/-- Claim C9: on the compilation short-circuit the job stays `PRIMED`
(the transition to `EXECUTED` happens only on the path that performs the
run phase), and the short-circuit verdict carries its diagnostic under
the `output` key with `stdin` and `expectedOutput` null — and no
`stdout`/`expected_output` keys — while run-phase verdicts never use the
`output`/`expectedOutput` keys. -/
theorem execute_short_circuit_state_and_keys (sc : String → List String → String → RunResult)
    (j : Job) (c : RunResult)
    (hstate : j.state = JState.PRIMED)
    (hc : sc "compile" (j.files.map FileSpec.name) "" = c) :
    (j.runtime.compiled = true → compile_failed c = true →
      (execute sc j).1 = j ∧ (execute sc j).1.state = JState.PRIMED ∧
      ∃ resp, (execute sc j).2 = Except.ok (resp, none) ∧
        resp.verdict.output = some (if c.stderr ≠ "" then c.stderr
                                    else generic_compile_message) ∧
        resp.verdict.stdout = none ∧ resp.verdict.stdin = none ∧
        resp.verdict.expectedOutput = none ∧ resp.verdict.expected_output = none) ∧
    ((j.runtime.compiled = false ∨ compile_failed c = false) →
      (execute sc j).1.state = JState.EXECUTED ∧
      ∃ resp d, (execute sc j).2 = Except.ok (resp, some d) ∧
        resp.verdict.output = none ∧ resp.verdict.expectedOutput = none) := by
  subst hc
  constructor
  · intro hcomp hfail
    rw [execute_compiled_failed_eq sc j hstate hcomp hfail]
    exact ⟨rfl, hstate, _, rfl, rfl, rfl, rfl, rfl, rfl⟩
  · intro hok
    have hok' : j.runtime.compiled = true →
        compile_failed (sc "compile" (j.files.map FileSpec.name) "") = false := by
      intro hcomp
      cases hok with
      | inl h => rw [h] at hcomp; cases hcomp
      | inr h => exact h
    rw [execute_run_phase_eq sc j hstate hok']
    by_cases hl : j.runtime.language = "java"
    · rw [execute_runs_java sc j _ hl]
      exact ⟨rfl, _, _, rfl, (evaluate_no_compile_keys _ _ _ _).1,
        (evaluate_no_compile_keys _ _ _ _).2⟩
    · rw [execute_runs_other sc j _ hl]
      exact ⟨rfl, _, _, rfl, (evaluate_no_compile_keys _ _ _ _).1,
        (evaluate_no_compile_keys _ _ _ _).2⟩

/-- Claim C9 witness: a compiled runtime whose compile step emits
`oops` on stderr leaves the job in the `PRIMED` state. -/
theorem execute_short_circuit_state_and_keys_witness :
    (execute (fun _ _ _ => { stdout := "", stderr := "oops", code := some 0, signal := none,
                             stdin := "" })
      { runtime := { language := "python3", compiled := true },
        files := [{ name := "a.py", content := "x" }], args := [], stdin := [],
        expected_output := none, main := "a.py", uid := 0, gid := 0,
        state := JState.PRIMED }).1.state = JState.PRIMED :=
  ((execute_short_circuit_state_and_keys
    (fun _ _ _ => { stdout := "", stderr := "oops", code := some 0, signal := none,
                    stdin := "" })
    { runtime := { language := "python3", compiled := true },
      files := [{ name := "a.py", content := "x" }], args := [], stdin := [],
      expected_output := none, main := "a.py", uid := 0, gid := 0,
      state := JState.PRIMED }
    { stdout := "", stderr := "oops", code := some 0, signal := none, stdin := "" }
    rfl rfl).1 rfl (by decide)).2.1

end Piston
